import Mathlib

/-!
Verification of the Smart Habit Tracker core (`main.py`).

Shallow embedding conventions:
* calendar dates are `Int` (one unit = one day; `d - 1` is the previous day,
  mirroring `d - dt.timedelta(days=1)`; ISO-8601 string order used by the
  SQLite backend agrees with this order);
* amounts and targets are `ℚ` (the source uses Python floats; all constants
  involved — 0.6, 0.75 — are exact in `ℚ`);
* a log series handed to the analyzer is a `List (Int × ℚ)` of
  (date, amount) rows, in the order the backend returned them.
-/

namespace HabitTracker

/-- A (date, amount) row of a habit's log series, as consumed by the
analyzer (`logs_df` / `recent_df` in the source). -/
abbrev LogList := List (Int × ℚ)

/-- `logs_df.groupby("date")["amount"].sum()` evaluated at date `d`:
the sum of the amounts of all rows whose date is `d`. -/
def dailyTotal (logs : LogList) (d : Int) : ℚ :=
  ((logs.filter (fun e => e.1 == d)).map Prod.snd).sum

/-- `d in met.index`: some row of `logs` has date `d`. -/
def hasEntry (logs : LogList) (d : Int) : Bool :=
  logs.any (fun e => e.1 == d)

/-- `d in met.index and met.loc[d]` in `Habit._update_streak`: date `d` has at
least one row and its daily total meets the target (`x >= self.target`). -/
def metOn (logs : LogList) (target : ℚ) (d : Int) : Bool :=
  hasEntry logs d && decide (target ≤ dailyTotal logs d)

/-- The `while d in met.index and met.loc[d]` loop of `Habit._update_streak`,
walking backward from `d` and counting consecutive met days.  The loop in the
source terminates because only finitely many dates carry entries; here the
walk carries fuel, and `update_streak` supplies `logs.length + 1`, which is
enough because a run of `k` consecutive met days needs `k` distinct dated
rows (proved in `metRun_le_length`). -/
def streakWalk (logs : LogList) (target : ℚ) : Nat → Int → Nat
  | 0, _ => 0
  | fuel + 1, d =>
    if metOn logs target d then streakWalk logs target fuel (d - 1) + 1 else 0

/-- `Habit._update_streak` followed by `get_streak`: 0 on an empty log set;
otherwise the count of consecutive met days walking back from `today`, and
if that count is 0, the count walking back from yesterday instead. -/
def update_streak (logs : LogList) (target : ℚ) (today : Int) : Nat :=
  if logs = [] then 0
  else
    let s := streakWalk logs target (logs.length + 1) today
    if s = 0 then streakWalk logs target (logs.length + 1) (today - 1) else s

/-- `recent_df[recent_df["date"] >= (dt.date.today() - dt.timedelta(days=6))]`:
the rows whose date is on or after `today - 6`.  (The source puts no upper
bound on the date.) -/
def last7 (logs : LogList) (today : Int) : LogList :=
  logs.filter (fun e => today - 6 ≤ e.1)

/-- The distinct dates of the window rows, i.e. the index of
`last7.groupby("date")`. -/
def windowDates (logs : LogList) (today : Int) : List Int :=
  ((last7 logs today).map Prod.fst).dedup

/-- `StudyHabit.recommendation`'s metric:
`last7.groupby("date")["amount"].sum().ge(self.target).mean()` when the
window is nonempty, else `0` — the fraction of the distinct window dates
whose daily total meets the target. -/
def studyConsistency (logs : LogList) (target : ℚ) (today : Int) : ℚ :=
  let w := last7 logs today
  if w.isEmpty then 0
  else
    let ds := (w.map Prod.fst).dedup
    ((ds.filter (fun d => target ≤ dailyTotal w d)).length : ℚ) / (ds.length : ℚ)

/-- `StudyHabit.recommendation`'s branch: `true` iff the fixed-hour Pomodoro
("fixed-time focus block") tip is chosen, i.e. iff `consistency < 0.6`. -/
def studyPicksFocusBlock (logs : LogList) (target : ℚ) (today : Int) : Bool :=
  decide (studyConsistency logs target today < 3 / 5)

/-- Modelled from the claim's words, for comparison with the source: the
fraction whose denominator is all 7 calendar days `today - 6 .. today`, a
day with no entry counting as not met, and 0 if the window has no entries. -/
def studyConsistencyClaim (logs : LogList) (target : ℚ) (today : Int) : ℚ :=
  if (last7 logs today).isEmpty then 0
  else (((List.range 7).filter (fun j => metOn logs target (today - j))).length : ℚ) / 7

/-- `ExerciseHabit.recommendation`'s metric: `last7["amount"].mean()` when the
window is nonempty, else `0` — the mean of the individual row amounts (rows
sharing a date are NOT summed first). -/
def exerciseAvg (logs : LogList) (today : Int) : ℚ :=
  let w := last7 logs today
  if w.isEmpty then 0 else ((w.map Prod.snd).sum) / (w.length : ℚ)

/-- `ExerciseHabit.recommendation`'s branch: `true` iff the rest-day tip is
chosen, i.e. iff `avg >= self.target`. -/
def exercisePicksRestDay (logs : LogList) (target : ℚ) (today : Int) : Bool :=
  decide (target ≤ exerciseAvg logs today)

/-- Modelled from the claim's words, for comparison with the source: the mean
of the per-date daily totals over the distinct window dates (days with no
entry excluded), 0 if the window is empty. -/
def exerciseAvgClaim (logs : LogList) (today : Int) : ℚ :=
  let ds := windowDates logs today
  if ds.isEmpty then 0 else ((ds.map (dailyTotal logs)).sum) / (ds.length : ℚ)

/-- The three tips `SleepHabit.recommendation` can choose between. -/
inductive SleepMsg
  /-- "No recent data. Aim for a consistent bedtime window (±30 min)." -/
  | noData
  /-- "Bedtime consistency looks good—maintain routine." -/
  | consistent
  /-- "Large variance—set a fixed screen-off time 1 hour before bed." -/
  | screenOff
deriving DecidableEq

/-- The sample variance (denominator `n - 1`) of a list of rationals; the
square of pandas' `Series.std()` whenever the latter is defined (length ≥ 2). -/
def sampleVar (xs : List ℚ) : ℚ :=
  let n : ℚ := xs.length
  let m : ℚ := xs.sum / n
  ((xs.map (fun x => (x - m) ^ 2)).sum) / (n - 1)

/-- `SleepHabit.recommendation`'s choice of message.  The source computes
`variance = last7["amount"].std()` (over the individual window rows, ddof=1)
when the window is nonempty, `None` otherwise, then compares
`variance <= 0.75`.  Faithfulness notes:
* a window of exactly one row makes pandas' `std()` return NaN, and
  `NaN <= 0.75` is `False`, so the source lands on the screen-off branch;
* for ≥ 2 rows, `std ≤ 0.75` holds iff the sample variance is at most
  `(3/4)^2 = 9/16`, since the square root is monotone on nonnegatives. -/
def sleepMsg (logs : LogList) (today : Int) : SleepMsg :=
  let w := last7 logs today
  if w.isEmpty then .noData
  else if w.length = 1 then .screenOff
  else if sampleVar (w.map Prod.snd) ≤ 9 / 16 then .consistent
  else .screenOff

/-- Modelled from the claim's words, for comparison with the source: "no
data" if zero or one distinct window day has entries; otherwise the sample
standard deviation of the per-date daily totals decides, consistent iff it
is at most 0.75 (stated on the variance, threshold `9/16`). -/
def sleepMsgClaim (logs : LogList) (today : Int) : SleepMsg :=
  let ds := windowDates logs today
  if ds.length ≤ 1 then .noData
  else if sampleVar (ds.map (dailyTotal logs)) ≤ 9 / 16 then .consistent
  else .screenOff

/-- A row of the `habits` table / an entry of `MemoryRepo._habits`. -/
structure HabitRow where
  id : Nat
  hname : String
  htype : String
  htarget : ℚ
deriving DecidableEq

/-- A row of the SQLite `logs` table (the autoincrement `id` column is kept
implicitly as the row's position: it never surfaces through the contract). -/
structure LogRow where
  habit_id : Nat
  ldate : Int
  lamount : ℚ
deriving DecidableEq

/-- The order `ORDER BY date ASC` sorts `get_logs` results by (ISO date
strings compare like the dates themselves). -/
def dateLE (a b : Int × ℚ) : Prop := a.1 ≤ b.1

instance : DecidableRel dateLE := fun a b => inferInstanceAs (Decidable (a.1 ≤ b.1))

instance : IsTotal (Int × ℚ) dateLE := ⟨fun a b => Int.le_total a.1 b.1⟩

instance : IsTrans (Int × ℚ) dateLE := ⟨fun _ _ _ h h' => le_trans h h'⟩

/-- The state of `SQLiteRepo`: the two tables in insertion order plus the
autoincrement counter for `habits.id`.  `sqlite3` in Python does not enforce
the declared `FOREIGN KEY` (the `foreign_keys` pragma is never switched on),
so `add_log` below inserts unconditionally, exactly as the source does. -/
structure SQLiteRepo where
  habits : List HabitRow
  nextId : Nat
  logs : List LogRow
deriving DecidableEq

/-- A freshly created database (`_init_db` on a new file). -/
def SQLiteRepo.empty : SQLiteRepo := ⟨[], 1, []⟩

/-- `SQLiteRepo.add_habit`: a bare `INSERT` — no validation of name, type or
target — returning `lastrowid`. -/
def SQLiteRepo.add_habit (r : SQLiteRepo) (name htype : String) (target : ℚ) :
    Nat × SQLiteRepo :=
  (r.nextId, ⟨r.habits ++ [⟨r.nextId, name, htype, target⟩], r.nextId + 1, r.logs⟩)

/-- `SQLiteRepo.delete_habit`: `DELETE FROM logs WHERE habit_id=?` then
`DELETE FROM habits WHERE id=?`. -/
def SQLiteRepo.delete_habit (r : SQLiteRepo) (hid : Nat) : SQLiteRepo :=
  ⟨r.habits.filter (fun h => !(h.id == hid)), r.nextId,
   r.logs.filter (fun l => !(l.habit_id == hid))⟩

/-- `SQLiteRepo.add_log`: a bare `INSERT` into `logs`; the foreign key is not
enforced (see `SQLiteRepo`), so this succeeds for any `hid`. -/
def SQLiteRepo.add_log (r : SQLiteRepo) (hid : Nat) (d : Int) (amount : ℚ) :
    SQLiteRepo :=
  ⟨r.habits, r.nextId, r.logs ++ [⟨hid, d, amount⟩]⟩

/-- `SQLiteRepo.get_logs`: `SELECT date, amount FROM logs WHERE habit_id=?
ORDER BY date ASC`.  SQLite leaves the relative order of equal dates
unspecified; the model picks `insertionSort`, and the theorems below only
use sortedness and the multiset of rows, which any order satisfies. -/
def SQLiteRepo.get_logs (r : SQLiteRepo) (hid : Nat) : LogList :=
  List.insertionSort dateLE
    ((r.logs.filter (fun l => l.habit_id == hid)).map (fun l => (l.ldate, l.lamount)))

/-- The state of `MemoryRepo`: `_habits` and `_logs` are Python dicts keyed
by habit id, modelled as functions to `Option`; `_next_id` is the counter.
(The dicts' iteration order only affects `list_habits`, which no claim
touches.) -/
structure MemoryRepo where
  habits : Nat → Option HabitRow
  logs : Nat → Option LogList
  next_id : Nat

/-- `MemoryRepo.__init__`: empty dicts, `_next_id = 1`. -/
def MemoryRepo.empty : MemoryRepo := ⟨fun _ => none, fun _ => none, 1⟩

/-- `MemoryRepo.add_habit`: stores the record under `_next_id`, sets
`_logs[hid] = []` (overwriting any orphan list), increments the counter and
returns the id.  No validation of name, type or target. -/
def MemoryRepo.add_habit (r : MemoryRepo) (name htype : String) (target : ℚ) :
    Nat × MemoryRepo :=
  (r.next_id,
   ⟨fun i => if i = r.next_id then some ⟨r.next_id, name, htype, target⟩ else r.habits i,
    fun i => if i = r.next_id then some [] else r.logs i,
    r.next_id + 1⟩)

/-- `MemoryRepo.delete_habit`: `pop(habit_id, None)` on both dicts. -/
def MemoryRepo.delete_habit (r : MemoryRepo) (hid : Nat) : MemoryRepo :=
  ⟨fun i => if i = hid then none else r.habits i,
   fun i => if i = hid then none else r.logs i,
   r.next_id⟩

/-- `MemoryRepo.add_log`: `self._logs.setdefault(habit_id, []).append (...)`
— appends to the habit's list, creating it if absent; no existence check on
the habit. -/
def MemoryRepo.add_log (r : MemoryRepo) (hid : Nat) (d : Int) (amount : ℚ) :
    MemoryRepo :=
  ⟨r.habits, fun i => if i = hid then some ((r.logs hid).getD [] ++ [(d, amount)])
                      else r.logs i,
   r.next_id⟩

/-- `MemoryRepo.get_logs`: the stored list in insertion order (`[]` when the
key is absent); no sorting. -/
def MemoryRepo.get_logs (r : MemoryRepo) (hid : Nat) : LogList :=
  (r.logs hid).getD []

/-! ### Streak lemmas (C1) -/

theorem hasEntry_of_metOn {logs : LogList} {target : ℚ} {d : Int}
    (h : metOn logs target d = true) : d ∈ logs.map Prod.fst := by
  have hent : hasEntry logs d = true := (Bool.and_eq_true _ _).mp h |>.1
  simp only [hasEntry, List.any_eq_true, beq_iff_eq] at hent
  obtain ⟨e, he, hd⟩ := hent
  exact List.mem_map.mpr ⟨e, he, hd⟩

/-- A run of `k` consecutive met days needs `k` distinct dated rows, so `k`
is at most the number of rows.  This is what makes `logs.length + 1` enough
fuel for `streakWalk` to simulate the source's unbounded `while` loop. -/
theorem metRun_le_length {logs : LogList} {target : ℚ} {d : Int} {k : Nat}
    (h : ∀ j : Nat, j < k → metOn logs target (d - j) = true) :
    k ≤ logs.length := by
  have hsub : (Finset.range k).image (fun j : Nat => d - (j : Int)) ⊆
      (logs.map Prod.fst).toFinset := by
    intro x hx
    rw [Finset.mem_image] at hx
    obtain ⟨j, hj, rfl⟩ := hx
    rw [List.mem_toFinset]
    exact hasEntry_of_metOn (h j (Finset.mem_range.mp hj))
  have hinj : Function.Injective (fun j : Nat => d - (j : Int)) := by
    intro a b hab
    simp only [sub_right_inj, Int.natCast_inj] at hab
    exact hab
  have h1 : ((Finset.range k).image (fun j : Nat => d - (j : Int))).card = k := by
    rw [Finset.card_image_of_injective _ hinj, Finset.card_range]
  calc k = ((Finset.range k).image (fun j : Nat => d - (j : Int))).card := h1.symm
    _ ≤ (logs.map Prod.fst).toFinset.card := Finset.card_le_card hsub
    _ ≤ (logs.map Prod.fst).length := List.toFinset_card_le _
    _ = logs.length := List.length_map _ _

/-- `streakWalk` with enough fuel counts exactly the length of the maximal
run of consecutive met days starting at `d` and walking backward. -/
theorem streakWalk_eq_of_run (logs : LogList) (target : ℚ) :
    ∀ (k : Nat) (d : Int) (fuel : Nat), k < fuel →
      (∀ j : Nat, j < k → metOn logs target (d - j) = true) →
      metOn logs target (d - k) = false →
      streakWalk logs target fuel d = k := by
  intro k
  induction k with
  | zero =>
    intro d fuel hf _ hend
    obtain ⟨f, rfl⟩ : ∃ f, fuel = f + 1 := ⟨fuel - 1, by omega⟩
    have hd : metOn logs target d = false := by simpa using hend
    simp [streakWalk, hd]
  | succ n ih =>
    intro d fuel hf hrun hend
    obtain ⟨f, rfl⟩ : ∃ f, fuel = f + 1 := ⟨fuel - 1, by omega⟩
    have h0 : metOn logs target d = true := by simpa using hrun 0 (by omega)
    rw [streakWalk, if_pos h0]
    have hrec : streakWalk logs target f (d - 1) = n := by
      apply ih (d - 1) f (by omega)
      · intro j hj
        have hs := hrun (j + 1) (by omega)
        rw [show d - 1 - (j : Int) = d - ((j : Int) + 1) by ring]
        simpa [Int.natCast_succ] using hs
      · rw [show d - 1 - (n : Int) = d - ((n : Int) + 1) by ring]
        simpa [Int.natCast_succ] using hend
    rw [hrec]

/-- C1: if today's daily total does not meet the target (or today has no
row) then the streak computed by `Habit._update_streak` (and returned by
`get_streak`) is the count of consecutive met days walking back from
yesterday: whenever the days `today - 1, …, today - k` are all met and
`today - 1 - k` is not (or is absent), the streak is exactly `k` — with
`k = 3` this is the spec's carry-over example. -/
theorem streak_carry_over (logs : LogList) (target : ℚ) (today : Int) (k : Nat)
    (h0 : metOn logs target today = false)
    (h1 : ∀ j : Nat, j < k → metOn logs target (today - 1 - j) = true)
    (h2 : metOn logs target (today - 1 - k) = false) :
    update_streak logs target today = k := by
  by_cases hnil : logs = []
  · subst hnil
    have hk : k = 0 := by
      by_contra hk0
      have := h1 0 (Nat.pos_of_ne_zero hk0)
      simp [metOn, hasEntry] at this
    simp [update_streak, hk]
  · have hbound : k ≤ logs.length := metRun_le_length h1
    have hw0 : streakWalk logs target (logs.length + 1) today = 0 := by
      rw [streakWalk, if_neg (by simp [h0])]
    have hwy : streakWalk logs target (logs.length + 1) (today - 1) = k :=
      streakWalk_eq_of_run logs target k (today - 1) (logs.length + 1)
        (by omega) h1 h2
    simp only [update_streak, if_neg hnil, hw0, if_pos rfl]
    exact hwy

/-- Witness for C1 at a concrete log set: target 5, today = day 10, days
7, 8, 9 met, day 10 absent, day 6 absent — streak 3. -/
theorem streak_carry_over_witness :
    metOn [((9:Int),(5:ℚ)), (8,5), (7,5)] 5 10 = false ∧
    update_streak [((9:Int),(5:ℚ)), (8,5), (7,5)] 5 10 = 3 := by
  constructor
  · norm_num [metOn, hasEntry]
  · apply streak_carry_over
    · norm_num [metOn, hasEntry]
    · intro j hj
      have h3 : j = 0 ∨ j = 1 ∨ j = 2 := by omega
      rcases h3 with rfl | rfl | rfl <;> norm_num [metOn, hasEntry, dailyTotal]
    · norm_num [metOn, hasEntry]

/-! ### Study recommendation (C2) -/

/-- The Study metric restated over a `Finset` of dates: the fraction of the
distinct dates carrying a window row whose (whole-log) daily total meets the
target, `0` when no date does. -/
def studyConsistencyFinset (logs : LogList) (target : ℚ) (today : Int) : ℚ :=
  let D : Finset Int := ((last7 logs today).map Prod.fst).toFinset
  if D = ∅ then 0
  else ((D.filter (fun d => target ≤ dailyTotal logs d)).card : ℚ) / (D.card : ℚ)

theorem list_dedup_toFinset {α : Type} [DecidableEq α] (l : List α) :
    l.dedup.toFinset = l.toFinset :=
  Finset.ext fun a => by simp [List.mem_toFinset, List.mem_dedup]

theorem window_date_bound {logs : LogList} {today d : Int}
    (h : d ∈ (last7 logs today).map Prod.fst) : today - 6 ≤ d := by
  rw [List.mem_map] at h
  obtain ⟨e, he, rfl⟩ := h
  have := List.of_mem_filter he
  simpa using this

/-- Summing a date's amounts inside the window equals summing them over the
whole log list, for any date the window can contain. -/
theorem dailyTotal_last7 (logs : LogList) (today d : Int) (hd : today - 6 ≤ d) :
    dailyTotal (last7 logs today) d = dailyTotal logs d := by
  unfold dailyTotal last7
  rw [List.filter_filter]
  have hfc : logs.filter (fun a => a.1 == d && decide (today - 6 ≤ a.1))
      = logs.filter (fun e => e.1 == d) := by
    apply List.filter_congr
    intro e _
    by_cases he : e.1 = d
    · simp [he, hd]
    · simp [he]
  rw [hfc]

/-- C2 (corrected): the consistency metric of `StudyHabit.recommendation`
divides by the number of distinct dates that carry a window row — not by 7 —
and the fixed-hour focus-block tip is chosen exactly when that fraction is
below 0.6. -/
theorem study_consistency_eq (logs : LogList) (target : ℚ) (today : Int) :
    studyConsistency logs target today = studyConsistencyFinset logs target today ∧
    studyPicksFocusBlock logs target today
      = decide (studyConsistencyFinset logs target today < 3 / 5) := by
  have hmain : studyConsistency logs target today = studyConsistencyFinset logs target today := by
    unfold studyConsistency studyConsistencyFinset
    by_cases hw : (last7 logs today).isEmpty
    · have hnil : last7 logs today = [] := List.isEmpty_iff.mp hw
      simp [hw, hnil]
    · have hne : ¬((last7 logs today).map Prod.fst).toFinset = ∅ := by
        rw [List.toFinset_eq_empty_iff]
        simp only [List.map_eq_nil_iff]
        intro hnil
        rw [hnil] at hw
        exact hw rfl
      simp only [hw, if_false, hne, if_false, Bool.false_eq_true]
      have hfc : ((last7 logs today).map Prod.fst).dedup.filter
            (fun d => decide (target ≤ dailyTotal (last7 logs today) d))
          = ((last7 logs today).map Prod.fst).dedup.filter
            (fun d => decide (target ≤ dailyTotal logs d)) := by
        apply List.filter_congr
        intro d hd
        rw [dailyTotal_last7 logs today d (window_date_bound (List.mem_dedup.mp hd))]
      rw [hfc]
      have hnum : (((last7 logs today).map Prod.fst).dedup.filter
            (fun d => decide (target ≤ dailyTotal logs d))).length
          = ((((last7 logs today).map Prod.fst).toFinset).filter
            (fun d => target ≤ dailyTotal logs d)).card := by
        rw [← List.toFinset_card_of_nodup
          ((List.nodup_dedup _).filter _)]
        rw [List.toFinset_filter, list_dedup_toFinset]
        simp
      have hden : (((last7 logs today).map Prod.fst).toFinset).card
          = ((last7 logs today).map Prod.fst).dedup.length :=
        List.card_toFinset _
      rw [hnum, hden]
  exact ⟨hmain, by rw [studyPicksFocusBlock, hmain]⟩

/-- C2 counterexample: with the single row (today, 60) and target 60, the
source's consistency is 1/1 = 1 (spaced-repetition branch), while the
claim's 7-day fraction is 1/7 < 0.6, which would demand the focus-block
branch. -/
theorem study_denominator_cex :
    studyPicksFocusBlock [((0:Int), (60:ℚ))] 60 0 = false ∧
    studyConsistencyClaim [((0:Int), (60:ℚ))] 60 0 < 3 / 5 := by
  constructor
  · norm_num [studyPicksFocusBlock, studyConsistency, last7, dailyTotal]
  · norm_num [studyConsistencyClaim, last7, metOn, hasEntry, dailyTotal,
      List.range_succ]

/-! ### Exercise recommendation (C3) -/

/-- C3 (corrected): on a nonempty window, `ExerciseHabit.recommendation`
chooses the rest-day tip exactly when `target * (number of window rows) ≤
(sum of the window rows' amounts)` — i.e. its metric is the mean of the
individual row amounts, rows sharing a date being counted separately, not
summed into daily totals first. -/
theorem exercise_mean_over_entries (logs : LogList) (target : ℚ) (today : Int)
    (h : ¬(last7 logs today).isEmpty = true) :
    exercisePicksRestDay logs target today = true ↔
      target * ((last7 logs today).length : ℚ)
        ≤ ((last7 logs today).map Prod.snd).sum := by
  unfold exercisePicksRestDay exerciseAvg
  rw [decide_eq_true_iff, if_neg h]
  have hlen : (0:ℚ) < ((last7 logs today).length : ℚ) := by
    have hne : (last7 logs today).length ≠ 0 := by
      intro h0
      exact h (by rwa [List.isEmpty_iff, ← List.length_eq_zero])
    exact_mod_cast Nat.pos_of_ne_zero hne
  rw [le_div_iff₀ hlen]

/-- Witness for C3 (corrected) at rows (today, 10), (today, 20), target 15:
the entry mean is 15 ≥ 15, so the rest-day tip is chosen. -/
theorem exercise_mean_over_entries_witness :
    exercisePicksRestDay [((0:Int), (10:ℚ)), (0, 20)] 15 0 = true := by
  apply (exercise_mean_over_entries [((0:Int), (10:ℚ)), (0, 20)] 15 0
    (by norm_num [last7])).mpr
  norm_num [last7]

/-- C3 counterexample: rows (today, 10) and (today, 20) with target 20.  The
source averages the two rows (15 < 20: incremental-increase branch), while
the claim's mean of daily totals is 30 ≥ 20, which would demand the
rest-day branch. -/
theorem exercise_metric_cex :
    exercisePicksRestDay [((0:Int), (10:ℚ)), (0, 20)] 20 0 = false ∧
    (20:ℚ) ≤ exerciseAvgClaim [((0:Int), (10:ℚ)), (0, 20)] 0 := by
  constructor
  · norm_num [exercisePicksRestDay, exerciseAvg, last7]
  · norm_num [exerciseAvgClaim, windowDates, last7, dailyTotal]

/-! ### Sleep recommendation (C4) -/

theorem sum_sq_sub (xs : List ℚ) (m : ℚ) :
    (xs.map (fun x => (x - m) ^ 2)).sum
      = (xs.map (fun x => x ^ 2)).sum - 2 * m * xs.sum
        + (xs.length : ℚ) * m ^ 2 := by
  induction xs with
  | nil => simp
  | cons a l ih =>
    simp only [List.map_cons, List.sum_cons, List.length_cons, ih]
    push_cast
    ring

/-- The sample variance in closed form, without the mean. -/
theorem sampleVar_eq (xs : List ℚ) (h2 : 2 ≤ xs.length) :
    sampleVar xs
      = ((xs.length : ℚ) * (xs.map (fun x => x ^ 2)).sum - xs.sum ^ 2)
        / ((xs.length : ℚ) * ((xs.length : ℚ) - 1)) := by
  have h2q : (2:ℚ) ≤ (xs.length : ℚ) := by exact_mod_cast h2
  have hn : ((xs.length : ℚ)) ≠ 0 := by linarith
  have hn1 : ((xs.length : ℚ)) - 1 ≠ 0 := by
    intro h0
    have : ((xs.length : ℚ)) = 1 := by linarith
    linarith
  show ((xs.map (fun x => (x - xs.sum / (xs.length : ℚ)) ^ 2)).sum)
      / ((xs.length : ℚ) - 1)
    = ((xs.length : ℚ) * (xs.map (fun x => x ^ 2)).sum - xs.sum ^ 2)
      / ((xs.length : ℚ) * ((xs.length : ℚ) - 1))
  rw [sum_sq_sub]
  field_simp
  ring

theorem ite_consistent_iff (p : Prop) [Decidable p] :
    (if p then SleepMsg.consistent else SleepMsg.screenOff)
      = SleepMsg.consistent ↔ p := by
  by_cases hp : p <;> simp [hp]

/-- C4 (corrected): `SleepHabit.recommendation` reports "no data" exactly
when the window has no rows at all; a window with a single row lands on the
screen-off branch (pandas' one-row `std()` is NaN and `NaN <= 0.75` is
false); and with at least two rows the branch is decided by the sample
standard deviation of the individual row amounts — not of per-date daily
totals — stated here on the variance in closed form. -/
theorem sleep_msg_characterization (logs : LogList) (today : Int) :
    (sleepMsg logs today = SleepMsg.noData ↔ last7 logs today = []) ∧
    ((last7 logs today).length = 1 → sleepMsg logs today = SleepMsg.screenOff) ∧
    (2 ≤ (last7 logs today).length →
      (sleepMsg logs today = SleepMsg.consistent ↔
        ((last7 logs today).length : ℚ)
            * (((last7 logs today).map Prod.snd).map (fun x => x ^ 2)).sum
          - (((last7 logs today).map Prod.snd).sum) ^ 2
        ≤ 9 / 16 * (((last7 logs today).length : ℚ)
            * (((last7 logs today).length : ℚ) - 1)))) := by
  refine ⟨?_, ?_, ?_⟩
  · unfold sleepMsg
    by_cases hw : (last7 logs today).isEmpty
    · simp [hw, List.isEmpty_iff.mp hw]
    · have hne : ¬ last7 logs today = [] := fun hn => hw (by simp [hn])
      by_cases h1 : (last7 logs today).length = 1
      · simp [hw, h1, hne]
      · by_cases hv : sampleVar ((last7 logs today).map Prod.snd) ≤ 9 / 16 <;>
          simp [hw, h1, hv, hne]
  · intro h1
    have hw : ¬(last7 logs today).isEmpty = true := by
      rw [List.isEmpty_iff, ← List.length_eq_zero]
      omega
    unfold sleepMsg
    simp [hw, h1]
  · intro h2
    have hw : ¬(last7 logs today).isEmpty = true := by
      rw [List.isEmpty_iff, ← List.length_eq_zero]
      omega
    have h1 : ¬(last7 logs today).length = 1 := by omega
    have hlen : ((last7 logs today).map Prod.snd).length
        = (last7 logs today).length := List.length_map _ _
    have h2' : 2 ≤ ((last7 logs today).map Prod.snd).length := by omega
    have h2q : (2:ℚ) ≤ ((last7 logs today).length : ℚ) := by exact_mod_cast h2
    have hpos : (0:ℚ) < ((last7 logs today).length : ℚ)
        * (((last7 logs today).length : ℚ) - 1) := by
      have : (0:ℚ) < ((last7 logs today).length : ℚ) := by linarith
      have : (0:ℚ) < ((last7 logs today).length : ℚ) - 1 := by linarith
      positivity
    unfold sleepMsg
    rw [if_neg hw, if_neg h1]
    rw [sampleVar_eq _ h2', hlen, ite_consistent_iff]
    exact div_le_iff₀ hpos

/-- Witness for C4 (corrected) at rows (today, 3), (today, 4): two rows on
one date; the source computes std ≈ 0.707 ≤ 0.75 and affirms consistency. -/
theorem sleep_msg_characterization_witness :
    sleepMsg [((0:Int), (3:ℚ)), (0, 4)] 0 = SleepMsg.consistent := by
  apply ((sleep_msg_characterization [((0:Int), (3:ℚ)), (0, 4)] 0).2.2
    (by norm_num [last7])).mpr
  norm_num [last7]

/-- C4 counterexample: the single row (today, 7).  One distinct day has
entries, so the claim demands the no-data message, but the source computes
`std()` of one value (NaN), fails the `<= 0.75` test, and emits the
screen-off tip. -/
theorem sleep_nodata_cex :
    sleepMsg [((0:Int), (7:ℚ))] 0 = SleepMsg.screenOff ∧
    sleepMsgClaim [((0:Int), (7:ℚ))] 0 = SleepMsg.noData := by
  constructor
  · norm_num [sleepMsg, last7]
  · norm_num [sleepMsgClaim, windowDates, last7]

/-! ### Repository theorems (C5–C10) -/

theorem sqlite_get_logs_append (r : SQLiteRepo) (hid : Nat) (d : Int) (amount : ℚ) :
    ((r.add_log hid d amount).get_logs hid).Perm (r.get_logs hid ++ [(d, amount)]) := by
  unfold SQLiteRepo.add_log SQLiteRepo.get_logs
  rw [List.filter_append, List.map_append]
  simp only [List.filter_cons, beq_self_eq_true, if_pos, List.filter_nil, List.map_cons,
    List.map_nil]
  exact (List.perm_insertionSort dateLE _).trans
    ((List.perm_insertionSort dateLE _).symm.append_right _)

/-- C5 (corrected): `add_log` performs no referential check on either
backend — `MemoryRepo` uses `setdefault` and `sqlite3` never enables the
`foreign_keys` pragma — so it always succeeds and appends the row, even for
a `habitId` that identifies no habit; the row is then visible through
`get_logs` for that id. -/
theorem addlog_unconditional (rm : MemoryRepo) (rs : SQLiteRepo) (hid : Nat)
    (d : Int) (amount : ℚ) :
    (rm.add_log hid d amount).get_logs hid = rm.get_logs hid ++ [(d, amount)] ∧
    ((rs.add_log hid d amount).get_logs hid).Perm (rs.get_logs hid ++ [(d, amount)]) := by
  constructor
  · simp [MemoryRepo.add_log, MemoryRepo.get_logs]
  · exact sqlite_get_logs_append rs hid d amount

/-- C5 counterexample: from the empty state — where no habit with id 1
exists — `add_log(1, day 0, 5)` does not fail and does write: `get_logs 1`
afterwards returns the row, on both backends. -/
theorem addlog_orphan_cex :
    MemoryRepo.empty.habits 1 = none ∧
    (MemoryRepo.empty.add_log 1 0 5).get_logs 1 = [((0:Int), (5:ℚ))] ∧
    SQLiteRepo.empty.habits = [] ∧
    (SQLiteRepo.empty.add_log 1 0 5).get_logs 1 = [((0:Int), (5:ℚ))] := by
  refine ⟨rfl, rfl, rfl, ?_⟩
  norm_num [SQLiteRepo.add_log, SQLiteRepo.get_logs, SQLiteRepo.empty,
    List.insertionSort, List.orderedInsert]

/-- C6 (corrected): `add_habit` performs no validation on either backend:
it succeeds for every name (the empty string included), every kind string
(ones outside the enumeration included) and every target, storing the
record; assuming every stored habit id is below the next-id counter (an
invariant of all reachable states), the returned id is fresh. -/
theorem addhabit_unconditional (rm : MemoryRepo) (rs : SQLiteRepo)
    (name htype : String) (target : ℚ)
    (hm : ∀ i, rm.next_id ≤ i → rm.habits i = none)
    (hs : ∀ row ∈ rs.habits, row.id < rs.nextId) :
    (rm.habits (rm.add_habit name htype target).1 = none ∧
     ((rm.add_habit name htype target).2).habits ((rm.add_habit name htype target).1)
       = some ⟨(rm.add_habit name htype target).1, name, htype, target⟩) ∧
    (rs.habits.filter (fun row => row.id == (rs.add_habit name htype target).1) = [] ∧
     (⟨(rs.add_habit name htype target).1, name, htype, target⟩ : HabitRow)
       ∈ ((rs.add_habit name htype target).2).habits) := by
  refine ⟨⟨hm _ le_rfl, ?_⟩, ?_, ?_⟩
  · simp [MemoryRepo.add_habit]
  · rw [List.filter_eq_nil_iff]
    intro row hrow
    have := hs row hrow
    simp only [SQLiteRepo.add_habit, beq_iff_eq]
    omega
  · simp [SQLiteRepo.add_habit]

/-- Witness for C6 (corrected): adding a habit with empty name and unknown
kind "Bogus" to the empty state succeeds on both backends and id 1 is
fresh. -/
theorem addhabit_unconditional_witness :
    (MemoryRepo.empty.habits (MemoryRepo.empty.add_habit "" "Bogus" 5).1 = none ∧
     ((MemoryRepo.empty.add_habit "" "Bogus" 5).2).habits
        ((MemoryRepo.empty.add_habit "" "Bogus" 5).1)
       = some ⟨(MemoryRepo.empty.add_habit "" "Bogus" 5).1, "", "Bogus", 5⟩) ∧
    (SQLiteRepo.empty.habits.filter
        (fun row => row.id == (SQLiteRepo.empty.add_habit "" "Bogus" 5).1) = [] ∧
     (⟨(SQLiteRepo.empty.add_habit "" "Bogus" 5).1, "", "Bogus", 5⟩ : HabitRow)
       ∈ ((SQLiteRepo.empty.add_habit "" "Bogus" 5).2).habits) :=
  addhabit_unconditional MemoryRepo.empty SQLiteRepo.empty "" "Bogus" 5
    (fun _ _ => rfl) (by simp [SQLiteRepo.empty])

/-- C6 counterexample: `add_habit("", "Bogus", 5)` on the empty state is
accepted and mutates the store on both backends, where the claim demands a
failure with the store unchanged. -/
theorem addhabit_no_validation_cex :
    ((MemoryRepo.empty.add_habit "" "Bogus" 5).2).habits 1
      = some ⟨1, "", "Bogus", 5⟩ ∧
    ((SQLiteRepo.empty.add_habit "" "Bogus" 5).2).habits
      = [⟨1, "", "Bogus", 5⟩] :=
  ⟨rfl, rfl⟩

/-- C7 (corrected): `SQLiteRepo.get_logs` returns the habit's rows sorted
ascending by date (a permutation of the habit's rows, empty when it has
none), while `MemoryRepo.get_logs` returns the stored list in insertion
order: appending via `add_log` appends to the returned sequence, sorted or
not. -/
theorem getlogs_contract (rs : SQLiteRepo) (rm : MemoryRepo) (hid : Nat)
    (d : Int) (amount : ℚ) :
    List.Sorted dateLE (rs.get_logs hid) ∧
    (rs.get_logs hid).Perm
      ((rs.logs.filter (fun l => l.habit_id == hid)).map (fun l => (l.ldate, l.lamount))) ∧
    (rm.add_log hid d amount).get_logs hid = rm.get_logs hid ++ [(d, amount)] := by
  refine ⟨List.sorted_insertionSort dateLE _, List.perm_insertionSort dateLE _, ?_⟩
  simp [MemoryRepo.add_log, MemoryRepo.get_logs]

/-- C7 counterexample: create a habit, then log day 5 before day 3.  The
in-memory backend returns the rows unsorted, the SQLite backend sorted —
the claim's "sorted ascending on both, backends indistinguishable" fails. -/
theorem getlogs_order_cex :
    (((((MemoryRepo.empty.add_habit "h" "Exercise (minutes)" 1).2).add_log 1 5 1).add_log
        1 3 1).get_logs 1 = [((5:Int), (1:ℚ)), (3, 1)]) ∧
    (((((SQLiteRepo.empty.add_habit "h" "Exercise (minutes)" 1).2).add_log 1 5 1).add_log
        1 3 1).get_logs 1 = [((3:Int), (1:ℚ)), (5, 1)]) := by
  constructor
  · rfl
  · norm_num [SQLiteRepo.add_habit, SQLiteRepo.add_log, SQLiteRepo.get_logs,
      SQLiteRepo.empty, List.insertionSort, List.orderedInsert, dateLE]

/-- C8 (corrected): after `delete_habit hid`, `get_logs hid` is empty on
both backends — logs cascade, orphan logs included — and deleting an id
that identifies no habit raises no error and leaves the habit store
unchanged; it is a true no-op only when no orphan logs sit under that id. -/
theorem delete_cascade (rm : MemoryRepo) (rs : SQLiteRepo) (hid i : Nat) :
    (rm.delete_habit hid).get_logs hid = [] ∧
    (rs.delete_habit hid).get_logs hid = [] ∧
    (rm.habits hid = none → (rm.delete_habit hid).habits i = rm.habits i) ∧
    ((∀ row ∈ rs.habits, row.id ≠ hid) → (rs.delete_habit hid).habits = rs.habits) := by
  refine ⟨?_, ?_, ?_, ?_⟩
  · simp [MemoryRepo.delete_habit, MemoryRepo.get_logs]
  · unfold SQLiteRepo.delete_habit SQLiteRepo.get_logs
    rw [List.filter_filter]
    have hnil : rs.logs.filter (fun a => a.habit_id == hid && !(a.habit_id == hid)) = [] := by
      rw [List.filter_eq_nil_iff]
      intro l _
      by_cases hl : l.habit_id = hid <;> simp [hl]
    rw [hnil]
    rfl
  · intro hm
    by_cases hi : i = hid
    · subst hi
      simp [MemoryRepo.delete_habit, hm]
    · simp [MemoryRepo.delete_habit, hi]
  · intro hs
    unfold SQLiteRepo.delete_habit
    rw [List.filter_eq_self.mpr]
    intro row hrow
    simp [hs row hrow]

/-- Witness for C8 (corrected) at the orphan state `add_log(1, day 0, 5)`
from empty: id 1 identifies no habit, yet deleting it empties `get_logs 1`
while habit lookups are untouched. -/
theorem delete_cascade_witness :
    ((MemoryRepo.empty.add_log 1 0 5).delete_habit 1).get_logs 1 = [] ∧
    ((SQLiteRepo.empty.add_log 1 0 5).delete_habit 1).get_logs 1 = [] ∧
    ((MemoryRepo.empty.add_log 1 0 5).delete_habit 1).habits 2
      = (MemoryRepo.empty.add_log 1 0 5).habits 2 ∧
    ((SQLiteRepo.empty.add_log 1 0 5).delete_habit 1).habits
      = (SQLiteRepo.empty.add_log 1 0 5).habits := by
  have h := delete_cascade (MemoryRepo.empty.add_log 1 0 5)
    (SQLiteRepo.empty.add_log 1 0 5) 1 2
  exact ⟨h.1, h.2.1, h.2.2.1 rfl, h.2.2.2 (by simp [SQLiteRepo.add_log, SQLiteRepo.empty])⟩

/-- C8 counterexample: the same orphan state shows the claim's "changes no
state" is false — deleting the never-created id 1 silently discards the
orphan log row on both backends (`get_logs 1` flips from one row to none). -/
theorem delete_orphan_cex :
    (MemoryRepo.empty.add_log 1 0 5).habits 1 = none ∧
    (MemoryRepo.empty.add_log 1 0 5).get_logs 1 = [((0:Int), (5:ℚ))] ∧
    ((MemoryRepo.empty.add_log 1 0 5).delete_habit 1).get_logs 1 = [] ∧
    (SQLiteRepo.empty.add_log 1 0 5).habits = [] ∧
    (SQLiteRepo.empty.add_log 1 0 5).get_logs 1 = [((0:Int), (5:ℚ))] ∧
    ((SQLiteRepo.empty.add_log 1 0 5).delete_habit 1).get_logs 1 = [] := by
  refine ⟨rfl, rfl, rfl, rfl, ?_, ?_⟩
  · norm_num [SQLiteRepo.add_log, SQLiteRepo.get_logs, SQLiteRepo.empty,
      List.insertionSort, List.orderedInsert]
  · rfl

/-- C9: on `MemoryRepo`, immediately after `add_habit` returns an id,
`get_logs` for that id is empty — `add_habit` assigns `_logs[hid] = []`,
overwriting any orphan list previously created by `add_log` under that id. -/
theorem addhabit_fresh_logs (rm : MemoryRepo) (name htype : String) (target : ℚ) :
    ((rm.add_habit name htype target).2).get_logs ((rm.add_habit name htype target).1)
      = [] := by
  simp [MemoryRepo.add_habit, MemoryRepo.get_logs]

/-- C10: `delete_habit id1` does not touch the habit record of a different
id2 nor the value of `get_logs id2`, on either backend. -/
theorem delete_frame (rm : MemoryRepo) (rs : SQLiteRepo) (id1 id2 : Nat)
    (h : id1 ≠ id2) :
    (rm.delete_habit id1).habits id2 = rm.habits id2 ∧
    (rm.delete_habit id1).get_logs id2 = rm.get_logs id2 ∧
    (rs.delete_habit id1).habits.filter (fun row => row.id == id2)
      = rs.habits.filter (fun row => row.id == id2) ∧
    (rs.delete_habit id1).get_logs id2 = rs.get_logs id2 := by
  have h21 : ¬(id2 = id1) := fun e => h e.symm
  refine ⟨?_, ?_, ?_, ?_⟩
  · simp [MemoryRepo.delete_habit, h21]
  · simp [MemoryRepo.delete_habit, MemoryRepo.get_logs, h21]
  · unfold SQLiteRepo.delete_habit
    rw [List.filter_filter]
    apply List.filter_congr
    intro row _
    by_cases hr : row.id = id2
    · subst hr
      simp [h21]
    · simp [hr]
  · unfold SQLiteRepo.delete_habit SQLiteRepo.get_logs
    rw [List.filter_filter]
    have hf : rs.logs.filter (fun a => a.habit_id == id2 && !(a.habit_id == id1))
        = rs.logs.filter (fun l => l.habit_id == id2) := by
      apply List.filter_congr
      intro l _
      by_cases hl : l.habit_id = id2
      · subst hl
        simp [h21]
      · simp [hl]
    rw [hf]

/-- Witness for C10 at a concrete state holding a (orphan) log row under
id 2 on both backends: deleting id 1 changes nothing observable about id 2. -/
theorem delete_frame_witness :
    ((MemoryRepo.empty.add_log 2 3 4).delete_habit 1).habits 2
      = (MemoryRepo.empty.add_log 2 3 4).habits 2 ∧
    ((MemoryRepo.empty.add_log 2 3 4).delete_habit 1).get_logs 2
      = (MemoryRepo.empty.add_log 2 3 4).get_logs 2 ∧
    ((SQLiteRepo.empty.add_log 2 3 4).delete_habit 1).habits.filter
        (fun row => row.id == 2)
      = (SQLiteRepo.empty.add_log 2 3 4).habits.filter (fun row => row.id == 2) ∧
    ((SQLiteRepo.empty.add_log 2 3 4).delete_habit 1).get_logs 2
      = (SQLiteRepo.empty.add_log 2 3 4).get_logs 2 :=
  delete_frame (MemoryRepo.empty.add_log 2 3 4) (SQLiteRepo.empty.add_log 2 3 4)
    1 2 (by decide)

end HabitTracker
